import Mathlib

/-!
Verification of the shellfish line tokenizer and command dispatch protocol.

The development shallowly embeds the Rust sources:
  * `src/shell.rs`   — `Shell::unescape`, the line tokenizer;
  * `src/handler/default.rs` — `DefaultHandler::handle` (interactive personality);
  * `src/handler/app.rs`     — `DefaultCommandLineHandler::handle` (CLI personality);
  * `src/app.rs`     — `App::run_vec`, the one-shot invocation with state persistence.

Strings are modelled as `List Char`; `Vec<String>` as `List (List Char)` or
`List String` where the handlers are concerned.  Fallible operations return
`Except`; the possible panic of `vec.last_mut().unwrap()` inside the tokenizer
loop is made explicit by an `Option` layer (`none` = panic).
-/

namespace Shellfish

/-- Embeds `enum UnescapeError` from `src/shell.rs`. -/
inductive UnescapeError where
  | UnhandledEscapeSequence (c : Char)
  | UnclosedQuotes
deriving DecidableEq, Repr

/-- Faithful transliteration of the loop of `Shell::unescape` (`src/shell.rs`
lines 197–241).  The state is the whole `vec` of segments, mutated exactly as
in the source: `segment = vec.last_mut().unwrap()` becomes the `getLast?`
match, where `none` models the panic of `unwrap` on an empty vector;
`segment.push(c)` becomes replacing the last element by `seg ++ [c]`;
`vec.push(String::new())` becomes `vec ++ [[]]`.  After the loop: an open
quote is `UnclosedQuotes`, and a result of exactly one empty segment
(`vec.len() == 1 && vec[0].is_empty()`) is cleared to the empty list. -/
def unescapeVec : List Char → Bool → Bool → List (List Char) →
    Option (Except UnescapeError (List (List Char)))
  | [], _, string, vec =>
    if string then some (Except.error UnescapeError.UnclosedQuotes)
    else if vec.length = 1 ∧ vec.head? = some ([] : List Char) then
      some (Except.ok [])
    else some (Except.ok vec)
  | c :: rest, escape, string, vec =>
    match vec.getLast? with
    | none => none
    | some seg =>
      if escape then
        if c = '\\' then unescapeVec rest false string (vec.dropLast ++ [seg ++ ['\\']])
        else if c = ' ' ∧ string = false then
          unescapeVec rest false string (vec.dropLast ++ [seg ++ [' ']])
        else if c = 'n' then unescapeVec rest false string (vec.dropLast ++ [seg ++ ['\n']])
        else if c = 'r' then unescapeVec rest false string (vec.dropLast ++ [seg ++ ['\r']])
        else if c = 't' then unescapeVec rest false string (vec.dropLast ++ [seg ++ ['\t']])
        else if c = '"' then unescapeVec rest false string (vec.dropLast ++ [seg ++ ['"']])
        else some (Except.error (UnescapeError.UnhandledEscapeSequence c))
      else
        if c = '\\' then unescapeVec rest true string vec
        else if c = '"' then unescapeVec rest false (!string) vec
        else if c = ' ' ∧ string = true then
          unescapeVec rest false string (vec.dropLast ++ [seg ++ [' ']])
        else if c = ' ' then unescapeVec rest false string (vec ++ [[]])
        else unescapeVec rest false string (vec.dropLast ++ [seg ++ [c]])

/-- Entry point of the tokenizer: `Shell::unescape(command)` starts with
`vec![String::new()]`, `escape = false`, `string = false`. -/
def unescape (command : List Char) : Option (Except UnescapeError (List (List Char))) :=
  unescapeVec command false false [[]]

/-- Total accumulator form of the same loop: the vector `acc ++ [cur]` is
split into the completed segments `acc` and the current segment `cur`, so the
`unwrap` disappears.  Related to `unescapeVec` by `unescapeVec_eq_acc`. -/
def unescapeAcc : List Char → Bool → Bool → List Char → List (List Char) →
    Except UnescapeError (List (List Char))
  | [], _, string, cur, acc =>
    if string then Except.error UnescapeError.UnclosedQuotes
    else if acc = [] ∧ cur = [] then Except.ok []
    else Except.ok (acc ++ [cur])
  | c :: rest, escape, string, cur, acc =>
    if escape then
      if c = '\\' then unescapeAcc rest false string (cur ++ ['\\']) acc
      else if c = ' ' ∧ string = false then unescapeAcc rest false string (cur ++ [' ']) acc
      else if c = 'n' then unescapeAcc rest false string (cur ++ ['\n']) acc
      else if c = 'r' then unescapeAcc rest false string (cur ++ ['\r']) acc
      else if c = 't' then unescapeAcc rest false string (cur ++ ['\t']) acc
      else if c = '"' then unescapeAcc rest false string (cur ++ ['"']) acc
      else Except.error (UnescapeError.UnhandledEscapeSequence c)
    else
      if c = '\\' then unescapeAcc rest true string cur acc
      else if c = '"' then unescapeAcc rest false (!string) cur acc
      else if c = ' ' ∧ string = true then unescapeAcc rest false string (cur ++ [' ']) acc
      else if c = ' ' then unescapeAcc rest false string [] (acc ++ [cur])
      else unescapeAcc rest false string (cur ++ [c]) acc

/-- Embeds the `line.trim()` performed by `Shell::run` (`src/shell.rs`
line 113) before the line reaches `unescape`. -/
def rustTrim (cs : List Char) : List Char :=
  ((cs.dropWhile Char.isWhitespace).reverse.dropWhile Char.isWhitespace).reverse

theorem concat_eq_singleton_iff {α : Type} (acc : List α) (cur x : α) :
    (acc ++ [cur]).length = 1 ∧ (acc ++ [cur]).head? = some x ↔ acc = [] ∧ cur = x := by
  cases acc <;> simp

theorem concat_eq_pair_iff {α : Type} (acc : List α) (cur x : α) :
    acc ++ [cur] = [x] ↔ acc = [] ∧ cur = x := by
  cases acc <;> simp

theorem unescapeVec_eq_acc (cs : List Char) :
    ∀ (escape string : Bool) (cur : List Char) (acc : List (List Char)),
      unescapeVec cs escape string (acc ++ [cur]) =
        some (unescapeAcc cs escape string cur acc) := by
  induction cs with
  | nil =>
    intro escape string cur acc
    simp only [unescapeVec, unescapeAcc]
    by_cases hs : string = true
    · simp [hs]
    · simp only [Bool.not_eq_true] at hs
      simp only [hs, if_false]
      by_cases h : acc = [] ∧ cur = []
      · rw [if_pos ((concat_eq_singleton_iff acc cur []).mpr h), if_pos h]; simp
      · rw [if_neg (fun hc => h ((concat_eq_singleton_iff acc cur []).mp hc)), if_neg h]
        simp
  | cons c rest ih =>
    intro escape string cur acc
    simp only [unescapeVec, unescapeAcc, List.getLast?_concat, List.dropLast_concat]
    by_cases he : escape = true
    · simp only [he, if_true]
      by_cases h1 : c = '\\'
      · simp [h1, ih]
      · simp only [h1, if_false]
        by_cases h2 : c = ' ' ∧ string = false
        · simp [h2, ih]
        · simp only [h2, if_false]
          by_cases h3 : c = 'n'
          · simp [h3, ih]
          · simp only [h3, if_false]
            by_cases h4 : c = 'r'
            · simp [h4, ih]
            · simp only [h4, if_false]
              by_cases h5 : c = 't'
              · simp [h5, ih]
              · simp only [h5, if_false]
                by_cases h6 : c = '"'
                · simp [h6, ih]
                · simp [h6]
    · simp only [Bool.not_eq_true] at he
      simp only [he, Bool.false_eq_true, if_false]
      by_cases h1 : c = '\\'
      · simp [h1, ih]
      · simp only [h1, if_false]
        by_cases h2 : c = '"'
        · simp [h2, ih]
        · simp only [h2, if_false]
          by_cases h3 : c = ' ' ∧ string = true
          · simp [h3, ih]
          · simp only [h3, if_false]
            by_cases h4 : c = ' '
            · simp only [h4, if_true]
              exact ih false string [] (acc ++ [cur])
            · simp [h4, ih]

theorem unescape_eq_acc (cs : List Char) :
    unescape cs = some (unescapeAcc cs false false [] []) := by
  have h := unescapeVec_eq_acc cs false false [] []
  simpa [unescape] using h

/-- Projects the error out of a tokenizer result. -/
def errOf {α : Type} : Except UnescapeError α → Option UnescapeError
  | Except.error e => some e
  | Except.ok _ => none

/-- Specification-side error classifier, following the spec's words: an
escaped character outside the fixed table (backslash, `n`, `r`, `t`,
double-quote, and a bare space only when not inside quotes) is an
`UnhandledEscapeSequence` carrying that character; a quote mode still open at
end of input is `UnclosedQuotes`; every other input is error-free.  It tracks
only the two mode booleans, not the tokens, and is compared with the embedded
code by `errOf_unescapeAcc`. -/
def specError : List Char → Bool → Bool → Option UnescapeError
  | [], _, string => if string then some UnescapeError.UnclosedQuotes else none
  | c :: rest, true, string =>
    if c = '\\' ∨ c = 'n' ∨ c = 'r' ∨ c = 't' ∨ c = '"' ∨ (c = ' ' ∧ string = false) then
      specError rest false string
    else some (UnescapeError.UnhandledEscapeSequence c)
  | c :: rest, false, string =>
    if c = '\\' then specError rest true string
    else if c = '"' then specError rest false (!string)
    else specError rest false string

theorem errOf_unescapeAcc (cs : List Char) :
    ∀ (escape string : Bool) (cur : List Char) (acc : List (List Char)),
      errOf (unescapeAcc cs escape string cur acc) = specError cs escape string := by
  induction cs with
  | nil =>
    intro escape string cur acc
    by_cases h : acc = [] ∧ cur = [] <;>
      cases string <;> simp [unescapeAcc, specError, errOf, h]
  | cons c rest ih =>
    intro escape string cur acc
    cases escape with
    | true =>
      by_cases h1 : c = '\\'
      · simp [unescapeAcc, specError, h1, ih]
      · by_cases h2 : c = ' ' ∧ string = false
        · simp [unescapeAcc, specError, h1, h2, ih]
        · by_cases h3 : c = 'n'
          · simp [unescapeAcc, specError, h1, h2, h3, ih]
          · by_cases h4 : c = 'r'
            · simp [unescapeAcc, specError, h1, h2, h3, h4, ih]
            · by_cases h5 : c = 't'
              · simp [unescapeAcc, specError, h1, h2, h3, h4, h5, ih]
              · by_cases h6 : c = '"'
                · simp [unescapeAcc, specError, h1, h2, h3, h4, h5, h6, ih]
                · simp [unescapeAcc, specError, errOf, h1, h2, h3, h4, h5, h6]
    | false =>
      by_cases h1 : c = '\\'
      · simp [unescapeAcc, specError, h1, ih]
      · by_cases h2 : c = '"'
        · simp [unescapeAcc, specError, h1, h2, ih]
        · by_cases h3 : c = ' ' ∧ string = true
          · obtain ⟨hc, hs⟩ := h3
            simp [unescapeAcc, specError, h1, h2, hc, hs, ih]
          · by_cases h4 : c = ' '
            · have hs : string = false := by
                cases string
                · rfl
                · exact absurd ⟨h4, rfl⟩ h3
              simp [unescapeAcc, specError, h1, h2, h4, hs, ih]
            · simp [unescapeAcc, specError, h1, h2, h3, h4, ih]

/-- Claim C5: the tokenizer errs exactly in the two situations the spec
describes — an escaped character outside the fixed table (including an
escaped space inside quotes) yields `UnhandledEscapeSequence` carrying that
character, and an open quote at end of input yields `UnclosedQuotes` — and
every other input returns `Ok`.  The characterization is via the spec-side
classifier `specError`; the three concrete conjuncts exhibit the escaped
space inside quotes, an unclosed quote, and an unknown escape. -/
theorem claim5_error_characterization :
    (∀ cs : List Char,
      (∀ e, unescape cs = some (Except.error e) ↔ specError cs false false = some e) ∧
      (specError cs false false = none ↔ ∃ ts, unescape cs = some (Except.ok ts))) ∧
    unescape (String.toList "\"a\\ b\"") =
      some (Except.error (UnescapeError.UnhandledEscapeSequence ' ')) ∧
    unescape (String.toList "a \"b") = some (Except.error UnescapeError.UnclosedQuotes) ∧
    unescape (String.toList "a \\q") =
      some (Except.error (UnescapeError.UnhandledEscapeSequence 'q')) := by
  refine ⟨fun cs => ?_, rfl, rfl, rfl⟩
  have he := errOf_unescapeAcc cs false false [] []
  rw [unescape_eq_acc cs]
  cases hu : unescapeAcc cs false false [] [] with
  | error e0 =>
    rw [hu] at he
    simp only [errOf] at he
    constructor
    · intro e
      simp [← he]
    · simp [← he]
  | ok ts0 =>
    rw [hu] at he
    simp only [errOf] at he
    constructor
    · intro e
      simp [← he]
    · simp [← he]

/-- Claim C8: the tokenizer is total and never panics — from any reachable
state the segment vector is non-empty, so the `vec.last_mut().unwrap()` in
the loop (the `getLast?` match in `unescapeVec`) never fails, and `unescape`
always returns either a token sequence or a typed error. -/
theorem claim8_no_panic (cs : List Char) (escape string : Bool)
    (vec : List (List Char)) (hvec : vec ≠ []) :
    (unescapeVec cs escape string vec).isSome = true ∧
    ∃ r, unescape cs = some r := by
  constructor
  · have hsplit : vec.dropLast ++ [vec.getLast hvec] = vec :=
      List.dropLast_append_getLast hvec
    rw [← hsplit, unescapeVec_eq_acc]
    rfl
  · exact ⟨_, unescape_eq_acc cs⟩

/-- Witness for `claim8_no_panic` at a concrete input and start state. -/
theorem claim8_no_panic_witness :
    (unescapeVec (String.toList "a\\q") false false [[]]).isSome = true ∧
    ∃ r, unescape (String.toList "a\\q") = some r :=
  claim8_no_panic (String.toList "a\\q") false false [[]] (by decide)

/-- Prepends `cur` onto the head segment of a split. -/
def consHead (cur : List Char) : List (List Char) → List (List Char)
  | [] => [cur]
  | t :: ts => (cur ++ t) :: ts

/-- Splits a character list at every space, keeping empty segments — the
behavior of the tokenizer loop on input with no quotes and no backslashes. -/
def splitSpace : List Char → List (List Char)
  | [] => [[]]
  | c :: rest =>
    if c = ' ' then [] :: splitSpace rest
    else consHead [c] (splitSpace rest)

/-- Applies the end-of-loop special case of `Shell::unescape` to a final
segment vector. -/
def okFinal (v : List (List Char)) : Except UnescapeError (List (List Char)) :=
  Except.ok (if v = [[]] then [] else v)

/-- Joins tokens with a single space between consecutive tokens. -/
def joinSpace : List (List Char) → List Char
  | [] => []
  | [t] => t
  | t :: ts => t ++ ' ' :: joinSpace ts

theorem consHead_ne_nil (cur : List Char) (ss : List (List Char)) :
    consHead cur ss ≠ [] := by
  cases ss <;> simp [consHead]

theorem splitSpace_ne_nil (cs : List Char) : splitSpace cs ≠ [] := by
  cases cs with
  | nil => simp [splitSpace]
  | cons c rest =>
    simp only [splitSpace]
    split
    · simp
    · exact consHead_ne_nil _ _

theorem consHead_consHead (a b : List Char) (ss : List (List Char)) :
    consHead a (consHead b ss) = consHead (a ++ b) ss := by
  cases ss <;> simp [consHead]

theorem clean_run (cs : List Char) :
    (∀ c ∈ cs, c ≠ '"' ∧ c ≠ '\\') →
    ∀ (cur : List Char) (acc : List (List Char)),
      unescapeAcc cs false false cur acc = okFinal (acc ++ consHead cur (splitSpace cs)) := by
  induction cs with
  | nil =>
    intro _ cur acc
    rcases Decidable.em (acc = [] ∧ cur = []) with h | h
    · obtain ⟨h1, h2⟩ := h
      subst h1
      subst h2
      simp [unescapeAcc, splitSpace, consHead, okFinal]
    · simp [unescapeAcc, splitSpace, consHead, okFinal, concat_eq_pair_iff, h]
  | cons c rest ih =>
    intro hclean cur acc
    have hc := hclean c (List.mem_cons_self c rest)
    have hrest : ∀ x ∈ rest, x ≠ '"' ∧ x ≠ '\\' :=
      fun x hx => hclean x (List.mem_cons_of_mem c hx)
    by_cases hsp : c = ' '
    · have hstep : unescapeAcc (c :: rest) false false cur acc =
          unescapeAcc rest false false [] (acc ++ [cur]) := by
        simp [unescapeAcc, hc.1, hc.2, hsp]
      rw [hstep, ih hrest [] (acc ++ [cur])]
      obtain ⟨t, ts, hts⟩ : ∃ t ts, splitSpace rest = t :: ts := by
        cases h : splitSpace rest with
        | nil => exact absurd h (splitSpace_ne_nil rest)
        | cons t ts => exact ⟨t, ts, rfl⟩
      simp [splitSpace, hsp, hts, consHead]
    · have hstep : unescapeAcc (c :: rest) false false cur acc =
          unescapeAcc rest false false (cur ++ [c]) acc := by
        simp [unescapeAcc, hc.1, hc.2, hsp]
      rw [hstep, ih hrest (cur ++ [c]) acc]
      obtain ⟨t, ts, hts⟩ : ∃ t ts, splitSpace rest = t :: ts := by
        cases h : splitSpace rest with
        | nil => exact absurd h (splitSpace_ne_nil rest)
        | cons t ts => exact ⟨t, ts, rfl⟩
      simp [splitSpace, hsp, hts, consHead]

theorem splitSpace_sound (cs : List Char) :
    ∀ t ∈ splitSpace cs, ∀ c ∈ t, c ∈ cs ∧ c ≠ ' ' := by
  induction cs with
  | nil =>
    intro t ht c hc
    simp only [splitSpace, List.mem_singleton] at ht
    subst ht
    simp at hc
  | cons a rest ih =>
    intro t ht c hc
    by_cases ha : a = ' '
    · rw [splitSpace, if_pos ha] at ht
      rcases List.mem_cons.mp ht with rfl | ht'
      · exact absurd hc (List.not_mem_nil c)
      · obtain ⟨hin, hne⟩ := ih t ht' c hc
        exact ⟨List.mem_cons_of_mem a hin, hne⟩
    · rw [splitSpace, if_neg ha] at ht
      cases hs : splitSpace rest with
      | nil => exact absurd hs (splitSpace_ne_nil rest)
      | cons t0 ts0 =>
        rw [hs] at ht
        simp only [consHead, List.singleton_append] at ht
        rcases List.mem_cons.mp ht with rfl | ht'
        · rcases List.mem_cons.mp hc with rfl | hc'
          · exact ⟨List.mem_cons_self _ _, ha⟩
          · obtain ⟨hin, hne⟩ :=
              ih t0 (by rw [hs]; exact List.mem_cons_self _ _) c hc'
            exact ⟨List.mem_cons_of_mem a hin, hne⟩
        · obtain ⟨hin, hne⟩ :=
            ih t (by rw [hs]; exact List.mem_cons_of_mem t0 ht') c hc
          exact ⟨List.mem_cons_of_mem a hin, hne⟩

theorem splitSpace_append (t : List Char) (hsf : ∀ c ∈ t, c ≠ ' ') (cs : List Char) :
    splitSpace (t ++ cs) = consHead t (splitSpace cs) := by
  induction t with
  | nil =>
    cases hs : splitSpace cs with
    | nil => exact absurd hs (splitSpace_ne_nil cs)
    | cons t0 ts0 => simp [hs, consHead]
  | cons a t2 ih =>
    have ha : a ≠ ' ' := hsf a (List.mem_cons_self _ _)
    have hsf2 : ∀ c ∈ t2, c ≠ ' ' := fun c hc => hsf c (List.mem_cons_of_mem a hc)
    calc splitSpace ((a :: t2) ++ cs)
        = consHead [a] (splitSpace (t2 ++ cs)) := by rw [List.cons_append, splitSpace, if_neg ha]
      _ = consHead [a] (consHead t2 (splitSpace cs)) := by rw [ih hsf2]
      _ = consHead (a :: t2) (splitSpace cs) := by
          rw [consHead_consHead]
          simp

theorem splitSpace_joinSpace (ts : List (List Char)) (hne : ts ≠ [])
    (hsf : ∀ t ∈ ts, ∀ c ∈ t, c ≠ ' ') :
    splitSpace (joinSpace ts) = ts := by
  induction ts with
  | nil => exact absurd rfl hne
  | cons t ts2 ih =>
    cases ts2 with
    | nil =>
      have h := splitSpace_append t (hsf t (List.mem_cons_self _ _)) []
      simpa [joinSpace, splitSpace, consHead] using h
    | cons u us =>
      have hjoin : joinSpace (t :: u :: us) = t ++ ' ' :: joinSpace (u :: us) := rfl
      rw [hjoin, splitSpace_append t (hsf t (List.mem_cons_self _ _)),
        splitSpace, if_pos rfl,
        ih (by simp) (fun v hv c hc => hsf v (List.mem_cons_of_mem t hv) c hc)]
      simp [consHead]

theorem mem_joinSpace (ts : List (List Char)) (c : Char) (hc : c ∈ joinSpace ts) :
    c = ' ' ∨ ∃ t ∈ ts, c ∈ t := by
  induction ts with
  | nil => simp [joinSpace] at hc
  | cons t ts2 ih =>
    cases ts2 with
    | nil =>
      exact Or.inr ⟨t, List.mem_cons_self _ _, by simpa [joinSpace] using hc⟩
    | cons u us =>
      have hjoin : joinSpace (t :: u :: us) = t ++ ' ' :: joinSpace (u :: us) := rfl
      rw [hjoin] at hc
      rcases List.mem_append.mp hc with h | h
      · exact Or.inr ⟨t, List.mem_cons_self _ _, h⟩
      · rcases List.mem_cons.mp h with rfl | h2
        · exact Or.inl rfl
        · rcases ih h2 with h3 | ⟨v, hv, hcv⟩
          · exact Or.inl h3
          · exact Or.inr ⟨v, List.mem_cons_of_mem _ hv, hcv⟩

theorem unescape_clean (s : List Char) (hclean : ∀ c ∈ s, c ≠ '"' ∧ c ≠ '\\') :
    unescape s = some (okFinal (splitSpace s)) := by
  rw [unescape_eq_acc s, clean_run s hclean [] []]
  cases hs : splitSpace s with
  | nil => exact absurd hs (splitSpace_ne_nil s)
  | cons t0 ts0 => simp [consHead]

/-- Claim C9: tokenizer idempotence on clean input — for a string with no
double-quote and no backslash characters, tokenizing, joining the tokens with
a single space, and tokenizing again yields the same token sequence as
tokenizing once. -/
theorem claim9_idempotence (s : List Char)
    (hclean : ∀ c ∈ s, c ≠ '"' ∧ c ≠ '\\') (ts : List (List Char))
    (hts : unescape s = some (Except.ok ts)) :
    unescape (joinSpace ts) = some (Except.ok ts) := by
  rw [unescape_clean s hclean] at hts
  have h2 : okFinal (splitSpace s) = Except.ok ts := Option.some.inj hts
  by_cases hss : splitSpace s = [[]]
  · have hts0 : ts = [] := by
      simpa [okFinal, hss] using (Except.ok.inj h2).symm
    subst hts0
    rfl
  · have hts0 : ts = splitSpace s := by
      simpa [okFinal, hss] using (Except.ok.inj h2).symm
    have hsf : ∀ t ∈ ts, ∀ c ∈ t, c ≠ ' ' := by
      intro t ht c hc
      exact (splitSpace_sound s t (hts0 ▸ ht) c hc).2
    have hne : ts ≠ [] := by
      rw [hts0]
      exact splitSpace_ne_nil s
    have hjclean : ∀ c ∈ joinSpace ts, c ≠ '"' ∧ c ≠ '\\' := by
      intro c hc
      rcases mem_joinSpace ts c hc with rfl | ⟨t, ht, hct⟩
      · exact ⟨by decide, by decide⟩
      · exact hclean c (splitSpace_sound s t (hts0 ▸ ht) c hct).1
    rw [unescape_clean (joinSpace ts) hjclean, splitSpace_joinSpace ts hne hsf]
    have : ts ≠ [[]] := hts0 ▸ hss
    simp [okFinal, this]

/-- Witness for `claim9_idempotence` at the concrete clean input `"a b"`. -/
theorem claim9_idempotence_witness :
    unescape (joinSpace [String.toList "a", String.toList "b"]) =
      some (Except.ok [String.toList "a", String.toList "b"]) :=
  claim9_idempotence (String.toList "a b") (by decide)
    [String.toList "a", String.toList "b"] rfl

/-- Claim C1, counterexample: the claim states that `unescape("   ")` (a line
of three spaces) returns `Ok` of an empty list, but on the code each unquoted
space pushes a fresh empty segment, so the result is four empty tokens, not
the empty sequence (the one-empty-token special case only fires for a vector
of length one). -/
theorem claim1_counterexample :
    unescape (String.toList "   ") = some (Except.ok [[], [], [], []]) ∧
    ([[], [], [], []] : List (List Char)) ≠ ([] : List (List Char)) :=
  ⟨rfl, by decide⟩

/-- Claim C1, amended: `unescape("")` returns `Ok []`; an all-whitespace line
reaches the tokenizer only after `Shell::run` has trimmed it (so the tokenizer
receives `""` and yields the empty sequence); `unescape("   ")` itself returns
`Ok` of four empty tokens. -/
theorem claim1_amended :
    unescape [] = some (Except.ok []) ∧
    unescape (rustTrim (String.toList "   ")) = some (Except.ok []) ∧
    unescape (String.toList "   ") = some (Except.ok [[], [], [], []]) :=
  ⟨rfl, rfl, rfl⟩

/-- Claim C4: the tokenizer splits on unquoted spaces, a double-quoted span is
one token with the quotes removed, and backslash-space is a literal space
inside a token: `unescape "a b" = Ok ["a", "b"]`,
`unescape "a \"b c\" d" = Ok ["a", "b c", "d"]`, and
`unescape "a\ b" = Ok ["a b"]`. -/
theorem claim4_examples :
    unescape (String.toList "a b") =
      some (Except.ok [String.toList "a", String.toList "b"]) ∧
    unescape (String.toList "a \"b c\" d") =
      some (Except.ok [String.toList "a", String.toList "b c", String.toList "d"]) ∧
    unescape (String.toList "a\\ b") =
      some (Except.ok [String.toList "a b"]) :=
  ⟨rfl, rfl, rfl⟩

/-- Embeds `enum CommandType` from `src/command.rs`: a command action is a
tagged variant holding either a synchronous or an asynchronous callable.  Rust
actions take `(&mut T, Vec<String>)` and return `Result<(), Box<dyn Error>>`;
the mutable reference becomes explicit state passing and the boxed error is
modelled by its message string.  The asynchronous callable ultimately yields
the same shape, so it carries the same function type here. -/
inductive CmdAction (T : Type) where
  | sync (f : T → List String → T × Except String Unit)
  | async (f : T → List String → T × Except String Unit)

/-- Embeds `struct Command` from `src/command.rs`. -/
structure Command (T : Type) where
  command : CmdAction T
  help : String

/-- One unit of terminal output: `line` for `println!`, `errLine` for
`eprintln!` (the red `Paint` colorization is presentational and dropped), and
`helpScreen` for the CLI help listing, which in the source iterates a
`HashMap` in unspecified order — the model therefore records the map's
contents (with insert-overwrite semantics) rather than an ordering, and drops
the `cmd_len` column padding. -/
inductive Out where
  | line (s : String)
  | errLine (s : String)
  | helpScreen (entries : List (String × String))
deriving DecidableEq, Repr

/-- Registry lookup: the map from command name to `Command` (a `HashMap` or
`IndexMap` in the source) is modelled as an association list with first-match
lookup. -/
def lookupCmd {T : Type} (name : String) : List (String × Command T) → Option (Command T)
  | [] => none
  | (n, c) :: rest => if n = name then some c else lookupCmd name rest

/-- Message of `eprintln!("Command exited unsuccessfully:\n{}\n({:?})", &e, &e)`;
the `Debug` rendering of the boxed error is modelled by `reprStr` on the
message string. -/
def cmdFailMsg (e : String) : String :=
  "Command exited unsuccessfully:\n" ++ e ++ "\n(" ++ reprStr e ++ ")"

/-- Embeds `DefaultHandler::handle` from `src/handler/default.rs` (interactive
personality): `line.get(0)` is the command name; `quit`/`exit` return `true`
immediately; `help` prints the description, the three built-in entries and
every registered command; otherwise the name is looked up and a synchronous
action is called with the whole token list, an asynchronous action is a
reported error, a missing command is a reported error; every non-quit path
returns `false`. -/
def DefaultHandler.handle {T : Type} (line : List String)
    (commands : List (String × Command T)) (state : T) (description : String) :
    T × Bool × List Out :=
  match line.head? with
  | none => (state, false, [])
  | some command =>
    if command = "quit" ∨ command = "exit" then
      (state, true, [Out.line ""])
    else if command = "help" then
      (state, false,
        [Out.line "", Out.line description,
         Out.line "    help - displays help information.",
         Out.line "    quit - quits the shell.",
         Out.line "    exit - exits the shell."] ++
        commands.map (fun p => Out.line ("    " ++ p.1 ++ " - " ++ p.2.help)) ++
        [Out.line ""])
    else
      match lookupCmd command commands with
      | some cmd =>
        match cmd.command with
        | CmdAction.sync f =>
          match f state line with
          | (state2, Except.ok _) => (state2, false, [Out.line "", Out.line ""])
          | (state2, Except.error e) =>
            (state2, false, [Out.line "", Out.errLine (cmdFailMsg e), Out.line ""])
        | CmdAction.async _ =>
          (state, false,
            [Out.line "",
             Out.errLine "Async commands cannot be run in sync shells.",
             Out.line ""])
      | none =>
        (state, false,
          [Out.line "", Out.errLine ("Command not found: " ++ command), Out.line ""])

/-- Inserts into the CLI help-listing map with `HashMap::insert` semantics:
replace the value when the key is present, append otherwise. -/
def insertHelp (k v : String) (m : List (String × String)) : List (String × String) :=
  if m.any (fun p => p.1 = k) then
    m.map (fun p => if p.1 = k then (k, v) else p)
  else m ++ [(k, v)]

/-- Contents of the `cmd_help` map built by the CLI help branch: the three
built-ins inserted first, then every registered command (which therefore
overwrites a built-in entry of the same name). -/
def cliHelpEntries {T : Type} (commands : List (String × Command T)) :
    List (String × String) :=
  (([("help", "displays help information."),
     ("quit", "deletes all temporary state information."),
     ("exit", "deletes all temporary state information.")] : List (String × String)) ++
    commands.map (fun p => (p.1, p.2.help))).foldl
    (fun m p => insertHelp p.1 p.2 m) []

/-- Embeds `DefaultCommandLineHandler::handle` from `src/handler/app.rs` (CLI
personality): `line.get(1)` is the command name (`line[0]` is the program
name); `quit`/`exit`/`--quit`/`--exit` return `true` immediately;
`help`/`--help` prints the usage screen and the `cmd_help` map; otherwise the
name is looked up and the action receives `line[1..]`; every non-quit path
returns `false`. -/
def DefaultCommandLineHandler.handle {T : Type} (projName : Option String)
    (line : List String) (commands : List (String × Command T)) (state : T)
    (description : String) : T × Bool × List Out :=
  match getElem? line 1 with
  | none => (state, false, [])
  | some command =>
    if command = "quit" ∨ command = "exit" ∨ command = "--quit" ∨ command = "--exit" then
      (state, true, [])
    else if command = "help" ∨ command = "--help" then
      (state, false,
        [Out.line line.headI, Out.line description, Out.line "USAGE:",
         Out.line ("    " ++ projName.getD line.headI ++ " [SUBCOMMAND]"),
         Out.line "",
         Out.line "Where [SUBCOMMAND] is one of:",
         Out.helpScreen (cliHelpEntries commands),
         Out.line ""])
    else
      match lookupCmd command commands with
      | some cmd =>
        match cmd.command with
        | CmdAction.sync f =>
          match f state (line.drop 1) with
          | (state2, Except.ok _) => (state2, false, [Out.line ""])
          | (state2, Except.error e) =>
            (state2, false, [Out.errLine (cmdFailMsg e), Out.line ""])
        | CmdAction.async _ =>
          (state, false,
            [Out.errLine "Async commands cannot be run in sync apps.", Out.line ""])
      | none =>
        (state, false,
          [Out.errLine ("Command not found: " ++ (line.drop 1).headI), Out.line ""])

theorem default_handle_terminate_iff {T : Type} (line : List String)
    (commands : List (String × Command T)) (state : T) (description : String) :
    (DefaultHandler.handle line commands state description).2.1 = true ↔
      line.head? = some "quit" ∨ line.head? = some "exit" := by
  cases hl : line.head? with
  | none => simp [DefaultHandler.handle, hl]
  | some command =>
    by_cases hq1 : command = "quit"
    · subst hq1
      simp [DefaultHandler.handle, hl]
    · by_cases hq2 : command = "exit"
      · subst hq2
        simp [DefaultHandler.handle, hl]
      · have hq : ¬(command = "quit" ∨ command = "exit") := by tauto
        have hfalse : (DefaultHandler.handle line commands state description).2.1 = false := by
          simp only [DefaultHandler.handle, hl, if_neg hq]
          split
          · rfl
          · split
            · split
              · split <;> rfl
              · rfl
            · rfl
        simp [hfalse, hq1, hq2]

theorem default_handle_quit {T : Type} (line : List String)
    (commands : List (String × Command T)) (state : T) (description : String)
    (hq : line.head? = some "quit" ∨ line.head? = some "exit") :
    DefaultHandler.handle line commands state description = (state, true, [Out.line ""]) := by
  rcases hq with hq | hq <;> simp [DefaultHandler.handle, hq]

theorem cli_handle_terminate_iff {T : Type} (projName : Option String)
    (line : List String) (commands : List (String × Command T)) (state : T)
    (description : String) :
    (DefaultCommandLineHandler.handle projName line commands state description).2.1 = true ↔
      getElem? line 1 = some "quit" ∨ getElem? line 1 = some "exit" ∨
      getElem? line 1 = some "--quit" ∨ getElem? line 1 = some "--exit" := by
  cases hl : getElem? line 1 with
  | none => simp [DefaultCommandLineHandler.handle, hl]
  | some command =>
    by_cases hq : command = "quit" ∨ command = "exit" ∨ command = "--quit" ∨ command = "--exit"
    · rcases hq with rfl | rfl | rfl | rfl <;>
        simp [DefaultCommandLineHandler.handle, hl]
    · have hfalse :
          (DefaultCommandLineHandler.handle projName line commands state description).2.1 =
            false := by
        simp only [DefaultCommandLineHandler.handle, hl, if_neg hq]
        split
        · rfl
        · split
          · split
            · split <;> rfl
            · rfl
          · rfl
      push_neg at hq
      obtain ⟨hq1, hq2, hq3, hq4⟩ := hq
      simp [hfalse, hq1, hq2, hq3, hq4]

theorem cli_handle_quit {T : Type} (projName : Option String) (line : List String)
    (commands : List (String × Command T)) (state : T) (description : String)
    (hq : getElem? line 1 = some "quit" ∨ getElem? line 1 = some "exit" ∨
      getElem? line 1 = some "--quit" ∨ getElem? line 1 = some "--exit") :
    DefaultCommandLineHandler.handle projName line commands state description =
      (state, true, []) := by
  rcases hq with hq | hq | hq | hq <;> simp [DefaultCommandLineHandler.handle, hq]

/-- Claim C3: each dispatcher personality returns `true` exactly when the
command-name token (the first token interactively, the second in CLI mode) is
`quit` or `exit` (also `--quit`/`--exit` in CLI mode); in that case the state
is unchanged and the result is a fixed tuple not depending on the registry
(so no registered command is invoked), and in every other case dispatch
returns `false`. -/
theorem claim3_terminate {T : Type} (commands : List (String × Command T))
    (state : T) (description : String) (projName : Option String)
    (line : List String) :
    ((DefaultHandler.handle line commands state description).2.1 = true ↔
      line.head? = some "quit" ∨ line.head? = some "exit") ∧
    ((line.head? = some "quit" ∨ line.head? = some "exit") →
      DefaultHandler.handle line commands state description =
        (state, true, [Out.line ""])) ∧
    ((DefaultCommandLineHandler.handle projName line commands state description).2.1 = true ↔
      getElem? line 1 = some "quit" ∨ getElem? line 1 = some "exit" ∨
      getElem? line 1 = some "--quit" ∨ getElem? line 1 = some "--exit") ∧
    ((getElem? line 1 = some "quit" ∨ getElem? line 1 = some "exit" ∨
      getElem? line 1 = some "--quit" ∨ getElem? line 1 = some "--exit") →
      DefaultCommandLineHandler.handle projName line commands state description =
        (state, true, [])) :=
  ⟨default_handle_terminate_iff line commands state description,
   default_handle_quit line commands state description,
   cli_handle_terminate_iff projName line commands state description,
   cli_handle_quit projName line commands state description⟩

/-- Witness for `claim3_terminate`: at the concrete lines `["quit"]`
(interactive) and `["prog", "exit"]` (CLI) with a non-empty registry, the
hypotheses of the inner implications are discharged concretely. -/
theorem claim3_terminate_witness :
    DefaultHandler.handle ["quit"]
        [("greet", ⟨CmdAction.sync (fun st _ => (st + 1, Except.ok ())), "greets"⟩)]
        (0 : Nat) "demo" = ((0 : Nat), true, [Out.line ""]) ∧
    DefaultCommandLineHandler.handle none ["prog", "exit"]
        [("greet", ⟨CmdAction.sync (fun st _ => (st + 1, Except.ok ())), "greets"⟩)]
        (0 : Nat) "demo" = ((0 : Nat), true, []) :=
  ⟨(claim3_terminate _ (0 : Nat) "demo" none ["quit"]).2.1 (Or.inl rfl),
   (claim3_terminate _ (0 : Nat) "demo" none ["prog", "exit"]).2.2.2 (Or.inr (Or.inl rfl))⟩

/-- Claim C6, counterexample: registering a user command literally named
`help` does change the output of invoking `help` — the interactive help
branch lists every registered command after the built-in entries, so the
registered `help` entry adds a listing line that is absent when the registry
is empty. -/
theorem claim6_counterexample :
    (DefaultHandler.handle ["help"]
        [("help", ⟨CmdAction.sync (fun st _ => (st, Except.ok ())), "user help"⟩)]
        (0 : Nat) "desc").2.2 ≠
      (DefaultHandler.handle ["help"] [] (0 : Nat) "desc").2.2 := by
  decide

/-- Claim C6, amended: built-in command names take precedence over registry
entries for both dispatcher personalities — when the command-name token is
`help`, `quit` or `exit`, a registered command of that name never has its
action invoked (the dispatch result is independent of the action), the state
is unchanged, and the returned boolean equals the one returned without the
registration; but the output of invoking `help` can change, because the help
listing includes the registered entry. -/
theorem claim6_amended {T : Type} (cmds : List (String × Command T)) (st : T)
    (d : String) (pn : Option String) (line : List String) (name hstr : String)
    (act act' : CmdAction T)
    (hname : name = "help" ∨ name = "quit" ∨ name = "exit") :
    (line.head? = some name →
      DefaultHandler.handle line ((name, ⟨act, hstr⟩) :: cmds) st d =
        DefaultHandler.handle line ((name, ⟨act', hstr⟩) :: cmds) st d ∧
      (DefaultHandler.handle line ((name, ⟨act, hstr⟩) :: cmds) st d).1 = st ∧
      (DefaultHandler.handle line ((name, ⟨act, hstr⟩) :: cmds) st d).2.1 =
        (DefaultHandler.handle line cmds st d).2.1) ∧
    (getElem? line 1 = some name →
      DefaultCommandLineHandler.handle pn line ((name, ⟨act, hstr⟩) :: cmds) st d =
        DefaultCommandLineHandler.handle pn line ((name, ⟨act', hstr⟩) :: cmds) st d ∧
      (DefaultCommandLineHandler.handle pn line ((name, ⟨act, hstr⟩) :: cmds) st d).1 = st ∧
      (DefaultCommandLineHandler.handle pn line ((name, ⟨act, hstr⟩) :: cmds) st d).2.1 =
        (DefaultCommandLineHandler.handle pn line cmds st d).2.1) := by
  constructor
  · intro hl
    rcases hname with rfl | rfl | rfl <;>
      simp [DefaultHandler.handle, hl]
  · intro hl
    rcases hname with rfl | rfl | rfl <;>
      simp [DefaultCommandLineHandler.handle, hl, cliHelpEntries]

/-- Witness for `claim6_amended`: invoking `help` with a user command named
`help` registered gives the same dispatch result whatever that command's
action is. -/
theorem claim6_amended_witness :
    DefaultHandler.handle ["help"]
        [("help", ⟨CmdAction.sync (fun st _ => (st + 1, Except.ok ())), "h"⟩)]
        (0 : Nat) "d" =
      DefaultHandler.handle ["help"]
        [("help", ⟨CmdAction.sync (fun st _ => (st + 2, Except.ok ())), "h"⟩)]
        (0 : Nat) "d" :=
  ((claim6_amended [] 0 "d" none ["help"] "help" "h"
      (CmdAction.sync (fun st _ => (st + 1, Except.ok ())))
      (CmdAction.sync (fun st _ => (st + 2, Except.ok ())))
      (Or.inl rfl)).1 rfl).1

/-- Claim C7: when a synchronous-only dispatcher resolves a registered
command whose action is asynchronous, it reports a non-fatal error on the
error channel, the command body is never invoked (the result is independent
of the action function `f`), the state is unchanged, and dispatch returns
`false`. -/
theorem claim7_unsupported_async {T : Type} (cmds : List (String × Command T))
    (st : T) (d : String) (pn : Option String) (line : List String)
    (name hstr : String) (f : T → List String → T × Except String Unit) :
    (line.head? = some name → name ≠ "quit" → name ≠ "exit" → name ≠ "help" →
      lookupCmd name cmds = some ⟨CmdAction.async f, hstr⟩ →
      DefaultHandler.handle line cmds st d =
        (st, false,
          [Out.line "", Out.errLine "Async commands cannot be run in sync shells.",
           Out.line ""])) ∧
    (getElem? line 1 = some name → name ≠ "quit" → name ≠ "exit" →
      name ≠ "--quit" → name ≠ "--exit" → name ≠ "help" → name ≠ "--help" →
      lookupCmd name cmds = some ⟨CmdAction.async f, hstr⟩ →
      DefaultCommandLineHandler.handle pn line cmds st d =
        (st, false,
          [Out.errLine "Async commands cannot be run in sync apps.", Out.line ""])) := by
  constructor
  · intro hl h1 h2 h3 hcmd
    simp [DefaultHandler.handle, hl, h1, h2, h3, hcmd]
  · intro hl h1 h2 h3 h4 h5 h6 hcmd
    simp [DefaultCommandLineHandler.handle, hl, h1, h2, h3, h4, h5, h6, hcmd]

/-- Witness for `claim7_unsupported_async`: a registered asynchronous command
invoked under the synchronous interactive dispatcher. -/
theorem claim7_unsupported_async_witness :
    DefaultHandler.handle ["task"]
        [("task", ⟨CmdAction.async (fun st _ => (st, Except.ok ())), "runs"⟩)]
        (0 : Nat) "d" =
      ((0 : Nat), false,
        [Out.line "", Out.errLine "Async commands cannot be run in sync shells.",
         Out.line ""]) :=
  (claim7_unsupported_async
      [("task", ⟨CmdAction.async (fun st _ => (st, Except.ok ())), "runs"⟩)]
      0 "d" none ["task"] "task" "runs" (fun st _ => (st, Except.ok ()))).1
    rfl (by decide) (by decide) (by decide) (by simp [lookupCmd])

/-- Claim C10: a registered synchronous command found by dispatch receives an
argument vector beginning with the command name itself — the interactive
handler passes the whole token list (name at index 0), and the CLI handler
passes the token list with only the program-name token removed, so the head
of what the action receives is again the command name. -/
theorem claim10_args_start_with_name {T : Type} (cmds : List (String × Command T))
    (st : T) (d : String) (pn : Option String) (line : List String)
    (name hstr : String) (f : T → List String → T × Except String Unit) :
    (line.head? = some name → name ≠ "quit" → name ≠ "exit" → name ≠ "help" →
      lookupCmd name cmds = some ⟨CmdAction.sync f, hstr⟩ →
      (DefaultHandler.handle line cmds st d).1 = (f st line).1 ∧
      line.head? = some name) ∧
    (getElem? line 1 = some name → name ≠ "quit" → name ≠ "exit" →
      name ≠ "--quit" → name ≠ "--exit" → name ≠ "help" → name ≠ "--help" →
      lookupCmd name cmds = some ⟨CmdAction.sync f, hstr⟩ →
      (DefaultCommandLineHandler.handle pn line cmds st d).1 = (f st line.tail).1 ∧
      line.tail.head? = some name) := by
  constructor
  · intro hl h1 h2 h3 hcmd
    refine ⟨?_, hl⟩
    rcases hf : f st line with ⟨s2, r⟩
    cases r <;> simp [DefaultHandler.handle, hl, h1, h2, h3, hcmd, hf]
  · intro hl h1 h2 h3 h4 h5 h6 hcmd
    refine ⟨?_, ?_⟩
    · rcases hf : f st line.tail with ⟨s2, r⟩
      cases r <;>
        simp [DefaultCommandLineHandler.handle, hl, h1, h2, h3, h4, h5, h6, hcmd, hf]
    · cases line with
      | nil => simp at hl
      | cons a rest =>
        cases rest with
        | nil => simp at hl
        | cons b bs => simpa using hl

/-- Witness for `claim10_args_start_with_name`: a `greet` command registered
in the interactive personality receives the whole token list, whose head is
`greet`. -/
theorem claim10_args_witness :
    (DefaultHandler.handle ["greet", "bob"]
        [("greet", ⟨CmdAction.sync
            (fun (_ : List String) a => (a, (Except.ok () : Except String Unit))), "g"⟩)]
        ([] : List String) "d").1 =
      ((fun (_ : List String) a => (a, (Except.ok () : Except String Unit)))
        ([] : List String) ["greet", "bob"]).1 ∧
    (["greet", "bob"] : List String).head? = some "greet" :=
  (claim10_args_start_with_name
      [("greet", ⟨CmdAction.sync
          (fun (_ : List String) a => (a, (Except.ok () : Except String Unit))), "g"⟩)]
      ([] : List String) "d" none ["greet", "bob"] "greet" "g"
      (fun _ a => (a, Except.ok ()))).1
    rfl (by decide) (by decide) (by decide) (by simp [lookupCmd])

/-- Error kind of the file-system operations `App::run_vec` performs; only
`NotFound` matters for the claims. -/
inductive FsError where
  | notFound
deriving DecidableEq, Repr

/-- Models `std::fs::remove_file` on the single cache path: the store is
`some blob` when the cache file exists.  Removing an absent file fails with
`ErrorKind::NotFound` — `remove_file` does not treat absence as success. -/
def removeFile (fs : Option String) : Except FsError (Option String) :=
  match fs with
  | none => Except.error FsError.notFound
  | some _ => Except.ok none

/-- Embeds `App::run_vec` (`src/app.rs` lines 147–180); `run_vec_async`
(lines 197–270) has the identical cache logic around `handle_async`.  The
generic handler `H` becomes the function argument `handle`;
`self.handler.get_cache()` becomes `getCache` (`none` when the home directory
cannot be found, in which case the source skips all cache work);
serialization `serde_json::to_string(&self.state)` becomes `ser`; the file
system at the cache path is the `fs : Option String` cell.  On `result =
true` the source runs `fs::remove_file(cache)?`, so its error (absence
included) propagates; on `result = false` it creates the parent directory and
writes the serialized state (directory creation and file creation are
modelled as always succeeding). -/
def App.run_vec {T : Type}
    (handle : List String → List (String × Command T) → T → String →
      T × Bool × List Out)
    (getCache : Option Unit) (ser : T → String)
    (commands : List (String × Command T)) (state : T) (description : String)
    (fs : Option String) (vec : List String) :
    Except FsError (T × Bool × Option String × List Out) :=
  match handle vec commands state description with
  | (state2, result, out) =>
    match result with
    | true =>
      match getCache with
      | some _ =>
        match removeFile fs with
        | Except.error e => Except.error e
        | Except.ok fs2 => Except.ok (state2, true, fs2, out)
      | none => Except.ok (state2, true, fs, out)
    | false =>
      match getCache with
      | some _ => Except.ok (state2, false, some (ser state2), out)
      | none => Except.ok (state2, false, fs, out)

/-- Claim C2, counterexample: the claim states that when dispatch returns
`true` and the persisted blob is absent, the deletion is idempotent and
`run_vec` still returns `Ok`; but `run_vec` calls `fs::remove_file(cache)?`,
and removing an absent file is a `NotFound` error which the `?` propagates,
so `run_vec` returns `Err` — here on a `quit` invocation with no cache
file. -/
theorem claim2_counterexample :
    App.run_vec (DefaultCommandLineHandler.handle none) (some ())
        (fun _ => "blob") [] (0 : Nat) "" none ["prog", "quit"] =
      Except.error FsError.notFound := rfl

/-- Claim C2, amended: in App mode, after dispatch returns its boolean: if
`true` and the blob exists, the blob is deleted and `run_vec` returns `Ok`;
if `true` and the blob is absent, the `remove_file` call fails with
`NotFound` and `run_vec` returns that error (deletion is not idempotent); if
`false`, the current state is serialized and written to the store (the
containing directory being created as needed). -/
theorem claim2_amended {T : Type}
    (handle : List String → List (String × Command T) → T → String →
      T × Bool × List Out)
    (ser : T → String) (commands : List (String × Command T)) (state : T)
    (description : String) (fs : Option String) (vec : List String) :
    ((handle vec commands state description).2.1 = true → fs = none →
      App.run_vec handle (some ()) ser commands state description fs vec =
        Except.error FsError.notFound) ∧
    ((handle vec commands state description).2.1 = true → ∀ b, fs = some b →
      App.run_vec handle (some ()) ser commands state description fs vec =
        Except.ok ((handle vec commands state description).1, true, none,
          (handle vec commands state description).2.2)) ∧
    ((handle vec commands state description).2.1 = false →
      App.run_vec handle (some ()) ser commands state description fs vec =
        Except.ok ((handle vec commands state description).1, false,
          some (ser (handle vec commands state description).1),
          (handle vec commands state description).2.2)) := by
  rcases hh : handle vec commands state description with ⟨s2, r, out⟩
  refine ⟨?_, ?_, ?_⟩
  · intro hr hfs
    have hr2 : r = true := hr
    subst hr2
    subst hfs
    simp [App.run_vec, hh, removeFile]
  · intro hr b hfs
    have hr2 : r = true := hr
    subst hr2
    subst hfs
    simp [App.run_vec, hh, removeFile]
  · intro hr
    have hr2 : r = false := hr
    subst hr2
    simp [App.run_vec, hh]

/-- Witness for `claim2_amended`: a `quit` invocation with the blob present
deletes it and returns `Ok true`; an invocation with no command serializes
the state into the store and returns `Ok false`. -/
theorem claim2_amended_witness :
    App.run_vec (DefaultCommandLineHandler.handle none) (some ())
        (fun _ => "blob") [] (5 : Nat) "" (some "old") ["prog", "quit"] =
      Except.ok ((5 : Nat), true, none, ([] : List Out)) ∧
    App.run_vec (DefaultCommandLineHandler.handle none) (some ())
        (fun _ => "blob") [] (5 : Nat) "" (some "old") ["prog"] =
      Except.ok ((5 : Nat), false, some "blob", ([] : List Out)) :=
  ⟨(claim2_amended (DefaultCommandLineHandler.handle none) (fun _ => "blob")
      [] 5 "" (some "old") ["prog", "quit"]).2.1 rfl "old" rfl,
   (claim2_amended (DefaultCommandLineHandler.handle none) (fun _ => "blob")
      [] 5 "" (some "old") ["prog"]).2.2 rfl⟩

end Shellfish
